import Mathlib

/-!
Verification of the Znodes Zcash network crawler against its specification.

The repository contains two variants of the RPC/classification layer:
the main crate (`src/rpc.rs`, embedded below in namespace `Rpc`) and the
vendored `src/ziggurat-crawler/src/tools/crawler/rpc.rs` (namespace `ZigRpc`).
The shared data model (`src/src/network.rs`) and protocol engine
(`src/protocol.rs`) are embedded at top level.

Machine integers: `u8` is modelled as `Nat` with arithmetic mod 256 at the
single place the source increments one (release-mode wrapping semantics);
`i32` heights are modelled as `Int` (the source's height arithmetic stays far
from i32 bounds on all inputs considered here); `u64`/`usize` as `Nat`.
`Instant` is modelled as an absolute timestamp in seconds (`Nat`), with
`elapsed` at time `now` being truncated subtraction, matching
`Instant::elapsed().as_secs()` for the second-granularity comparisons the
source performs. Rust `String::to_lowercase` is modelled by ASCII
lowercasing (`Char.toLower`), which agrees with Unicode lowercasing on the
ASCII user-agent strings the classifier inspects.
-/

/-- Socket address: IP (as a string) plus port, with decidable equality,
modelling `std::net::SocketAddr`. -/
structure SocketAddr where
  ip : String
  port : Nat
deriving DecidableEq, Repr

instance : Inhabited SocketAddr := ⟨⟨("0.0.0.0"), 0⟩⟩

/-- `ConnectionState` from `src/src/network.rs`. -/
inductive ConnectionState where
  | Disconnected
  | Connected
deriving DecidableEq, Repr

instance : Inhabited ConnectionState := ⟨ConnectionState.Disconnected⟩

/-- `KnownNode` from `src/src/network.rs` (the spec's PeerRecord).
`connection_failures` is a `u8` kept in `[0, 256)` by the operations. -/
structure KnownNode where
  last_connected : Option Nat := none
  handshake_time : Option Nat := none
  protocol_version : Option Nat := none
  user_agent : Option (List Char) := none
  start_height : Option Int := none
  services : Option Nat := none
  connection_failures : Nat := 0
  state : ConnectionState := ConnectionState.Disconnected
deriving DecidableEq, Repr

instance : Inhabited KnownNode := ⟨{}⟩

/-- The node map `HashMap<SocketAddr, KnownNode>`, modelled as an
association list (key lookup finds the first matching entry; the
operations below never create duplicate keys). -/
abbrev NodeMap := List (SocketAddr × KnownNode)

/-- Key membership test, modelling `HashMap::contains_key`. -/
def hasKey (m : NodeMap) (a : SocketAddr) : Bool :=
  m.any (fun p => decide (p.1 = a))

/-- Lookup, modelling `HashMap::get`. -/
def lookupNode (m : NodeMap) (a : SocketAddr) : Option KnownNode :=
  (m.find? (fun p => decide (p.1 = a))).map (fun p => p.2)

/-- `map.entry(a).or_default()`: insert a default record iff the key is absent. -/
def entryOrDefault (m : NodeMap) (a : SocketAddr) : NodeMap :=
  if hasKey m a then m else (a, {}) :: m

/-- `map.insert(a, n)`: insert, replacing any existing entry (HashMap::insert). -/
def insertNode (m : NodeMap) (a : SocketAddr) (n : KnownNode) : NodeMap :=
  if hasKey m a then m.map (fun p => if p.1 = a then (a, n) else p)
  else (a, n) :: m

/-- `map.get_mut(&a)` followed by a mutation: update the entry iff present. -/
def updateNode (m : NodeMap) (a : SocketAddr) (f : KnownNode → KnownNode) : NodeMap :=
  m.map (fun p => if p.1 = a then (p.1, f p.2) else p)

/-- `KnownConnection` (crate `ziggurat_core_crawler`).
Modelled from the spec: the crate's source is not vendored in this
repository; per the spec's data model, two edges are equal iff their
endpoint pair is equal, and `last_seen` does not take part in
equality/hashing. -/
structure KnownConnection where
  a : SocketAddr
  b : SocketAddr
  last_seen : Nat
deriving DecidableEq, Repr

/-- Endpoint-pair equality of edges (the `Eq`/`Hash` used by the `HashSet`). -/
def sameEndpoints (c d : KnownConnection) : Bool :=
  decide (c.a = d.a) && decide (c.b = d.b)

/-- `HashSet::insert c`: if an element equal to `c` (endpoint-wise) is
already present, the set is unchanged and the existing element (with its
original `last_seen`) is retained; otherwise `c` is added. -/
def insertConn (s : List KnownConnection) (c : KnownConnection) : List KnownConnection :=
  if s.any (sameEndpoints c) then s else c :: s

/-- `KnownNetwork` from `src/src/network.rs`: node map plus edge set. -/
structure KnownNetwork where
  nodes : NodeMap
  connections : List KnownConnection
deriving DecidableEq, Repr

/-- `KnownNetwork::default()`: empty map, empty edge set. -/
def initialNetwork : KnownNetwork := ⟨[], []⟩

/-- `LAST_SEEN_CUTOFF` from `src/src/network.rs`. -/
def LAST_SEEN_CUTOFF : Nat := 600

/-- `KnownNetwork::add_addrs` from `src/src/network.rs`: insert an edge
`(src, a)` for each `a` (stamped `now`), then `entry(src).or_default()`
and `entry(a).or_default()` for each `a`. -/
def add_addrs (net : KnownNetwork) (now : Nat) (src : SocketAddr)
    (addrs : List SocketAddr) : KnownNetwork :=
  { nodes :=
      addrs.foldl (fun m x => entryOrDefault m x) (entryOrDefault net.nodes src)
    connections :=
      addrs.foldl (fun s x => insertConn s ⟨src, x, now⟩) net.connections }

/-- `KnownNetwork::set_node_state`: update the state of the record iff present. -/
def set_node_state (net : KnownNetwork) (addr : SocketAddr)
    (st : ConnectionState) : KnownNetwork :=
  { net with nodes := updateNode net.nodes addr (fun n => { n with state := st }) }

/-- `KnownNetwork::remove_old_connections`: drop every edge whose
`last_seen` is more than `LAST_SEEN_CUTOFF` seconds old. -/
def remove_old_connections (net : KnownNetwork) (now : Nat) : KnownNetwork :=
  { net with connections :=
      net.connections.filter (fun c => !(decide (now - c.last_seen > LAST_SEEN_CUTOFF))) }

/-- Constants from `src/protocol.rs`. -/
def NUM_CONN_ATTEMPTS_PERIODIC : Nat := 2000

def MAX_CONCURRENT_CONNECTIONS : Nat := 3500

def RECONNECT_INTERVAL_SECS : Nat := 45

def MAX_WAIT_FOR_ADDR_SECS : Nat := 90

/-- The record mutation performed by `Crawler::connect` (`src/protocol.rs`)
once the dial has resolved: on success zero `connection_failures`, set
`last_connected`, `handshake_time` and `state = Connected`; on failure
`connection_failures += 1`, which on a Rust `u8` wraps modulo 256 in
release builds (and aborts in debug builds) — it does not saturate.
Records absent from the map are untouched (`get_mut` returns `None`). -/
def connectOutcome (net : KnownNetwork) (addr : SocketAddr) (ok : Bool)
    (ts hs : Nat) : KnownNetwork :=
  { net with nodes := updateNode net.nodes addr (fun n =>
      if ok then
        { n with connection_failures := 0, last_connected := some ts,
                 handshake_time := some hs, state := ConnectionState.Connected }
      else
        { n with connection_failures := (n.connection_failures + 1) % 256 }) }

/-- The record mutation performed on receipt of a `Version` message
(`src/protocol.rs`): store version metadata iff the record exists. -/
def recordVersion (net : KnownNetwork) (src : SocketAddr) (v : Nat)
    (ua : List Char) (sv : Nat) (h : Int) : KnownNetwork :=
  { net with nodes := updateNode net.nodes src (fun n =>
      { n with protocol_version := some v, user_agent := some ua,
               services := some sv, start_height := some h }) }

/-- The disconnect condition on receipt of `Addr` (`src/protocol.rs`):
`n > 1 || (n == 1 && a.addrs[0].addr != src)`. -/
def addrTriggersDisconnect (src : SocketAddr) (addrs : List SocketAddr) : Bool :=
  decide (addrs.length > 1) ||
    (decide (addrs.length = 1) && !(decide (addrs.getD 0 default = src)))

/-- Handling of an inbound `Addr{list}` from `src` (`src/protocol.rs`,
`process_message`): ingest all addresses via `add_addrs`, then, iff the
disconnect condition holds, close the connection and set the record's
state to `Disconnected`. Returns the new network and whether the
connection was closed. -/
def process_addr (net : KnownNetwork) (now : Nat) (src : SocketAddr)
    (addrs : List SocketAddr) : KnownNetwork × Bool :=
  let net1 := add_addrs net now src addrs
  if addrTriggersDisconnect src addrs then
    (set_node_state net1 src ConnectionState.Disconnected, true)
  else
    (net1, false)

/-- The transport-side counts and per-address flags consulted by
`should_connect` (provided by the `pea2pea` node). -/
structure TransportView where
  numConnected : Nat
  numConnecting : Nat
  connected : List SocketAddr
  connecting : List SocketAddr

/-- `Crawler::should_connect` from `src/protocol.rs`: refuse if the address
is unknown, the connection cap is reached, or the address is already
connected/connecting. -/
def should_connect (net : KnownNetwork) (tv : TransportView)
    (addr : SocketAddr) : Bool :=
  if (lookupNode net.nodes addr).isNone then false
  else if decide (tv.numConnected + tv.numConnecting ≥ MAX_CONCURRENT_CONNECTIONS) then false
  else if tv.connected.any (fun x => decide (x = addr)) ||
          tv.connecting.any (fun x => decide (x = addr)) then false
  else true

/-- ASCII lowercasing of a character list, modelling `str::to_lowercase`
(which agrees with this on ASCII input). -/
def toLowercase (s : List Char) : List Char := s.map Char.toLower

/-- Substring test, modelling `str::contains`: some tail of `hay` has
`needle` as a prefix. -/
def containsSub (hay needle : List Char) : Bool :=
  match hay with
  | [] => needle.isEmpty
  | _ :: t => needle.isPrefixOf hay || containsSub t needle

/-- `str::starts_with`. -/
def startsWith (hay needle : List Char) : Bool := needle.isPrefixOf hay

/-- Leading decimal digits of a character list. -/
def takeDigits (l : List Char) : List Char := l.takeWhile Char.isDigit

/-- Numeric value of a digit list. -/
def natOfDigits (l : List Char) : Nat :=
  l.foldl (fun acc c => acc * 10 + (c.toNat - 48)) 0

/-- The tail of `hay` after the first occurrence of `needle`, if any. -/
def tailAfter (hay needle : List Char) : Option (List Char) :=
  match hay with
  | [] => if needle.isEmpty then some [] else none
  | _ :: t => if needle.isPrefixOf hay then some (hay.drop needle.length)
              else tailAfter t needle

/-- Modelled from the spec: the major version `N` parsed from a
`MagicBean:N.x.y` user agent (case-insensitive), used to state the
claim's "a major version N ≥ 6 can be parsed" side; the source itself
only tests the substring `"magicbean:6."`. -/
def parseMagicBeanMajor (ua : List Char) : Option Nat :=
  match tailAfter (toLowercase ua) (("magicbean:").toList) with
  | none => none
  | some rest =>
      let ds := takeDigits rest
      if ds.isEmpty then none else some (natOfDigits ds)

/-- `u64::MAX`. -/
def U64_MAX : Nat := 2 ^ 64 - 1

namespace Rpc

/-- `MAX_HEIGHT_DELTA` from `src/rpc.rs`. -/
def MAX_HEIGHT_DELTA : Int := 10000

/-- `MIN_MAINNET_HEIGHT` from `src/rpc.rs`. -/
def MIN_MAINNET_HEIGHT : Int := 2500000

/-- The index `(len as f64 * 0.95) as usize` computed by
`estimate_tip_height`. For every `len < 2 ^ 48` the IEEE-754 computation
yields exactly `19 * len / 20` (Nat floor division): `0.95_f64` equals
`0.95 - 0.4 * 2 ^ (-53)`, the rounding error of the product is below half
the distance to the next multiple of `1 / 20`, and when `19 * len / 20`
is an integer the product rounds up to exactly that integer (the deficit
`0.4 * len * 2 ^ (-53)` is under half an ulp). -/
def tipIndex (len : Nat) : Nat := 19 * len / 20

/-- The heights considered by `estimate_tip_height` (`src/rpc.rs`):
known `start_height`s strictly above `MIN_MAINNET_HEIGHT`, in map order. -/
def qualifyingHeights (nodes : NodeMap) : List Int :=
  (nodes.filterMap (fun p => p.2.start_height)).filter
    (fun h => decide (h > MIN_MAINNET_HEIGHT))

/-- `estimate_tip_height` from `src/rpc.rs`: `MIN_MAINNET_HEIGHT` when no
height qualifies, else the sorted qualifying heights at index
`min (tipIndex len) (len - 1)`. `Vec::sort` (a stable sort by `≤`) is
modelled by `insertionSort (· ≤ ·)`, which produces the same list — the
stable sort of a list under a total preorder is unique. -/
def estimate_tip_height (nodes : NodeMap) : Int :=
  let heights := qualifyingHeights nodes
  if heights.isEmpty then MIN_MAINNET_HEIGHT
  else
    let sorted := heights.insertionSort (fun a b => a ≤ b)
    sorted.getD (min (tipIndex sorted.length) (sorted.length - 1)) MIN_MAINNET_HEIGHT

/-- `classify_client` from `src/rpc.rs`: flux if the lowercased agent
contains `"flux"` or `"magicbean:6."`; else zcashd on `"magicbean"`,
zebra on `"zebra"`, otherwise other. Returns `(client_type, is_flux)`. -/
def classify_client (ua : List Char) : String × Bool :=
  let low := toLowercase ua
  if containsSub low (("flux").toList) then (("flux"), true)
  else if containsSub low (("magicbean:6.").toList) then (("flux"), true)
  else if containsSub low (("magicbean").toList) then (("zcashd"), false)
  else if containsSub low (("zebra").toList) then (("zebra"), false)
  else (("other"), false)

/-- `is_relevant_zcash_node` from `src/rpc.rs`: user agent present and
starting with `/magicbean` or `/zebra` (lowercased), no `"flux"`, no
`"magicbean:6."`, height at least `MIN_MAINNET_HEIGHT`, and height within
`MAX_HEIGHT_DELTA` of the tip. The `port` argument is accepted but unused,
as in the source. -/
def is_relevant_zcash_node (node : KnownNode) (port : Nat) (tip : Int) : Bool :=
  match node.user_agent with
  | none => false
  | some ua =>
    let low := toLowercase ua
    let valid_client :=
      startsWith low (("/magicbean").toList) || startsWith low (("/zebra").toList)
    if !valid_client then false
    else if containsSub low (("flux").toList) then false
    else if containsSub low (("magicbean:6.").toList) then false
    else
      let height := node.start_height.getD 0
      if decide (height < MIN_MAINNET_HEIGHT) then false
      else if decide ((height - tip).natAbs > MAX_HEIGHT_DELTA.natAbs) then false
      else true

/-- `NodeInfo` from `src/rpc.rs` (serialization-only fields kept). -/
structure NodeInfo where
  ip : String
  port : Nat
  protocol_version : Option Nat
  user_agent : Option (List Char)
  height : Option Int
  services : Option Nat
  last_seen_secs : Nat
  is_relevant : Bool
  is_flux : Bool
  client_type : String
deriving DecidableEq, Repr

/-- The comparator passed to `result.sort_by` in `getnodes`:
`b.is_relevant.cmp(&a.is_relevant).then(a.last_seen_secs.cmp(&b.last_seen_secs))`. -/
def nodeOrd (a b : NodeInfo) : Ordering :=
  (compare b.is_relevant a.is_relevant).then (compare a.last_seen_secs b.last_seen_secs)

/-- The non-strict order induced by `nodeOrd` (`a` may precede `b`). -/
def nodeLe (a b : NodeInfo) : Bool := !(decide (nodeOrd a b = Ordering.gt))

/-- `nodeLe` as a relation, for the sort. -/
abbrev nodeLeP (a b : NodeInfo) : Prop := nodeLe a b = true

/-- The `NodeInfo` built for one map entry in `getnodes`. -/
def mkNodeInfo (addr : SocketAddr) (node : KnownNode) (ua : List Char)
    (now : Nat) (ct : String) (fl rel : Bool) : NodeInfo :=
  { ip := addr.ip, port := addr.port,
    protocol_version := node.protocol_version,
    user_agent := some ua,
    height := node.start_height,
    services := node.services,
    last_seen_secs := match node.last_connected with
      | some t => now - t
      | none => U64_MAX,
    is_relevant := rel, is_flux := fl, client_type := ct }

/-- The `nodes` list returned by the `getnodes` RPC method
(`src/rpc.rs`): skip records without a user agent; with
`include_flux = false` also skip flux records and non-relevant records;
finally sort by `nodeOrd` (relevant first, then ascending
`last_seen_secs`). `Vec::sort_by` (a stable sort) is modelled by
`insertionSort nodeLeP`, which produces the same list — the stable sort
of a list under a total preorder is unique. The accompanying `stats`
counters are independent of the returned list and are not modelled. -/
def getnodesResult (nodes : NodeMap) (now : Nat) (include_flux : Bool) :
    List NodeInfo :=
  let tip := estimate_tip_height nodes
  let raw := nodes.filterMap (fun p =>
    match p.2.user_agent with
    | none => none
    | some ua =>
      let cf := classify_client ua
      let rel := is_relevant_zcash_node p.2 p.1.port tip
      if !include_flux && cf.2 then none
      else if !include_flux && !rel then none
      else some (mkNodeInfo p.1 p.2 ua now cf.1 cf.2 rel))
  raw.insertionSort nodeLeP

end Rpc

namespace ZigRpc

/-- `classify_client` from
`src/ziggurat-crawler/src/tools/crawler/rpc.rs`: flux only on an explicit
`"flux"` substring; every `"magicbean"` agent (all versions) is zcashd;
then zebra; otherwise other. -/
def classify_client (ua : List Char) : String × Bool :=
  let low := toLowercase ua
  if containsSub low (("flux").toList) then (("flux"), true)
  else if containsSub low (("magicbean").toList) then (("zcashd"), false)
  else if containsSub low (("zebra").toList) then (("zebra"), false)
  else (("other"), false)

/-- `is_relevant_zcash_node` from
`src/ziggurat-crawler/src/tools/crawler/rpc.rs`: user agent present,
classification neither flux nor other, height at least 2,500,000, and
height within 20,000 of the tip for zebra resp. 100,000 for zcashd. -/
def is_relevant_zcash_node (node : KnownNode) (tip : Int) : Bool :=
  match node.user_agent with
  | none => false
  | some ua =>
    let cf := classify_client ua
    if cf.2 || decide (cf.1 = ("other")) then false
    else
      let height := node.start_height.getD 0
      if decide (height < 2500000) then false
      else
        let height_diff := (height - tip).natAbs
        if decide (cf.1 = ("zebra")) && decide (height_diff > 20000) then false
        else if decide (cf.1 = ("zcashd")) && decide (height_diff > 100000) then false
        else true

end ZigRpc

/-- The per-record exclusion applied by the crawl scheduler
(`src/main.rs`, `crawl_task`): a record is skipped iff its
`last_connected` lies within the last `RECONNECT_INTERVAL_SECS` seconds. -/
def keptForDial (now : Nat) (n : KnownNode) : Bool :=
  !(match n.last_connected with
    | some t => decide (now - t < RECONNECT_INTERVAL_SECS)
    | none => false)

/-- The `need_info` bucket of a scheduler tick: kept records with no
user agent, in snapshot order (before shuffling). -/
def needInfoBucket (snap : List (SocketAddr × KnownNode)) (now : Nat) :
    List SocketAddr :=
  (snap.filter (fun p => keptForDial now p.2 && p.2.user_agent.isNone)).map
    (fun p => p.1)

/-- The `have_info` bucket of a scheduler tick: kept records with a
user agent, in snapshot order (before shuffling). -/
def haveInfoBucket (snap : List (SocketAddr × KnownNode)) (now : Nat) :
    List SocketAddr :=
  (snap.filter (fun p => keptForDial now p.2 && p.2.user_agent.isSome)).map
    (fun p => p.1)

/-- The dial-target list built by one scheduler tick (`src/main.rs`):
given the two shuffled buckets, take the first
`NUM_CONN_ATTEMPTS_PERIODIC` of `need_info`, then fill the remainder of
the budget from `have_info`. -/
def crawlTargets (needS haveS : List SocketAddr) : List SocketAddr :=
  let t1 := needS.take NUM_CONN_ATTEMPTS_PERIODIC
  t1 ++ haveS.take (NUM_CONN_ATTEMPTS_PERIODIC - t1.length)

/-- Presence of a directed edge `(x, y)` in the edge set, irrespective of
its `last_seen` stamp. -/
def edgePresent (s : List KnownConnection) (x y : SocketAddr) : Bool :=
  s.any (sameEndpoints ⟨x, y, 0⟩)

/-- The store mutations the program performs on the `KnownNetwork`
(seed insertion and the dial loop in `src/main.rs`, the protocol engine
in `src/protocol.rs`, the snapshot builder's eviction in
`src/src/network.rs`). -/
inductive CrawlOp where
  | addAddrsOp (now : Nat) (src : SocketAddr) (addrs : List SocketAddr)
  | setStateOp (addr : SocketAddr) (st : ConnectionState)
  | removeOldOp (now : Nat)
  | seedInsertOp (addr : SocketAddr)
  | connectOp (addr : SocketAddr) (ok : Bool) (ts hs : Nat)
  | versionOp (src : SocketAddr) (v : Nat) (ua : List Char) (sv : Nat) (h : Int)

/-- Apply one store mutation. `seedInsertOp` models
`nodes.write().insert(addr, KnownNode::default())` from `src/main.rs`. -/
def applyOp (net : KnownNetwork) (op : CrawlOp) : KnownNetwork :=
  match op with
  | CrawlOp.addAddrsOp now src addrs => add_addrs net now src addrs
  | CrawlOp.setStateOp addr st => set_node_state net addr st
  | CrawlOp.removeOldOp now => remove_old_connections net now
  | CrawlOp.seedInsertOp addr => { net with nodes := insertNode net.nodes addr {} }
  | CrawlOp.connectOp addr ok ts hs => connectOutcome net addr ok ts hs
  | CrawlOp.versionOp src v ua sv h => recordVersion net src v ua sv h

/-- Run a sequence of store mutations from the initial (default) state. -/
def runOps (ops : List CrawlOp) : KnownNetwork :=
  ops.foldl applyOp initialNetwork

/-- Store invariant: both endpoints of every edge are keys of the node map. -/
def edgesClosedB (net : KnownNetwork) : Bool :=
  net.connections.all (fun c => hasKey net.nodes c.a && hasKey net.nodes c.b)

namespace Rpc

/-- The ordering claimed for the `getnodes` output, as a relation:
relevant entries precede non-relevant ones, and entries of equal
relevance are ordered by ascending `last_seen_secs`. -/
def nodeOrdered (a b : NodeInfo) : Prop :=
  (b.is_relevant = true → a.is_relevant = true) ∧
    (a.is_relevant = b.is_relevant → a.last_seen_secs ≤ b.last_seen_secs)

end Rpc

/-- Sample addresses used by concrete witnesses and counterexamples. -/
def addrW : SocketAddr := ⟨("203.0.113.7"), 8233⟩

def srcA : SocketAddr := ⟨("198.51.100.1"), 8233⟩

def addrB : SocketAddr := ⟨("198.51.100.2"), 8233⟩

theorem hasKey_nil (a : SocketAddr) : hasKey [] a = false := rfl

theorem hasKey_cons (p : SocketAddr × KnownNode) (m : NodeMap) (a : SocketAddr) :
    hasKey (p :: m) a = (decide (p.1 = a) || hasKey m a) := rfl

theorem lookupNode_cons (p : SocketAddr × KnownNode) (m : NodeMap) (a : SocketAddr) :
    lookupNode (p :: m) a = if p.1 = a then some p.2 else lookupNode m a := by
  by_cases h : p.1 = a <;> simp [lookupNode, List.find?_cons, h]

theorem hasKey_iff_lookup (m : NodeMap) (a : SocketAddr) :
    hasKey m a = true ↔ (lookupNode m a).isSome = true := by
  induction m with
  | nil => simp [hasKey_nil, lookupNode]
  | cons p t ih =>
    by_cases h : p.1 = a <;> simp [hasKey_cons, lookupNode_cons, h, ih]

theorem hasKey_entryOrDefault_self (m : NodeMap) (a : SocketAddr) :
    hasKey (entryOrDefault m a) a = true := by
  by_cases h : hasKey m a <;> simp [entryOrDefault, h, hasKey_cons]

theorem hasKey_entryOrDefault_mono {m : NodeMap} {a : SocketAddr}
    (x : SocketAddr) (h : hasKey m a = true) :
    hasKey (entryOrDefault m x) a = true := by
  by_cases hx : hasKey m x <;> simp [entryOrDefault, hx, hasKey_cons, h]

theorem entryOrDefault_of_hasKey {m : NodeMap} {x : SocketAddr}
    (h : hasKey m x = true) : entryOrDefault m x = m := by
  simp [entryOrDefault, h]

theorem hasKey_foldl_entry_mono {a : SocketAddr} :
    ∀ (L : List SocketAddr) (m : NodeMap), hasKey m a = true →
      hasKey (L.foldl entryOrDefault m) a = true
  | [], _, h => h
  | x :: t, m, h =>
      hasKey_foldl_entry_mono t (entryOrDefault m x) (hasKey_entryOrDefault_mono x h)

theorem hasKey_foldl_entry_of_mem {a : SocketAddr} :
    ∀ (L : List SocketAddr) (m : NodeMap), a ∈ L →
      hasKey (L.foldl entryOrDefault m) a = true
  | x :: t, m, h => by
      rcases List.mem_cons.mp h with h' | h'
      · subst h'
        exact hasKey_foldl_entry_mono t _ (hasKey_entryOrDefault_self m a)
      · exact hasKey_foldl_entry_of_mem t _ h'

theorem foldl_entry_noop :
    ∀ (L : List SocketAddr) (m : NodeMap), (∀ a ∈ L, hasKey m a = true) →
      L.foldl entryOrDefault m = m
  | [], _, _ => rfl
  | x :: t, m, h => by
      have hx : entryOrDefault m x = m :=
        entryOrDefault_of_hasKey (h x (List.mem_cons_self x t))
      rw [List.foldl_cons, hx]
      exact foldl_entry_noop t m (fun a ha => h a (List.mem_cons_of_mem x ha))

theorem lookupNode_entryOrDefault {m : NodeMap} {a : SocketAddr} {n : KnownNode}
    (x : SocketAddr) (h : lookupNode m a = some n) :
    lookupNode (entryOrDefault m x) a = some n := by
  by_cases hx : hasKey m x
  · simp [entryOrDefault, hx, h]
  · have hxa : x ≠ a := by
      intro he
      subst he
      have := (hasKey_iff_lookup m x).mpr (by simp [h])
      exact hx this
    simp [entryOrDefault, hx, lookupNode_cons, hxa, h]

theorem lookupNode_foldl_entry {a : SocketAddr} {n : KnownNode} :
    ∀ (L : List SocketAddr) (m : NodeMap), lookupNode m a = some n →
      lookupNode (L.foldl entryOrDefault m) a = some n
  | [], _, h => h
  | x :: t, m, h =>
      lookupNode_foldl_entry t (entryOrDefault m x) (lookupNode_entryOrDefault x h)

theorem hasKey_map_keyfix (m : NodeMap)
    (g : SocketAddr × KnownNode → SocketAddr × KnownNode)
    (hg : ∀ p, (g p).1 = p.1) (a : SocketAddr) :
    hasKey (m.map g) a = hasKey m a := by
  induction m with
  | nil => rfl
  | cons p t ih => simp [List.map_cons, hasKey_cons, hg, ih]

theorem lookupNode_updateNode_self (m : NodeMap) (b : SocketAddr)
    (f : KnownNode → KnownNode) :
    lookupNode (updateNode m b f) b = (lookupNode m b).map f := by
  induction m with
  | nil => simp [updateNode, lookupNode]
  | cons p t ih =>
    simp only [updateNode, List.map_cons] at *
    by_cases hpb : p.1 = b
    · simp [if_pos hpb, lookupNode_cons, hpb]
    · simp [if_neg hpb, lookupNode_cons, hpb, ih]

theorem lookupNode_updateNode_ne (m : NodeMap) (b : SocketAddr)
    (f : KnownNode → KnownNode) (a : SocketAddr) (hab : a ≠ b) :
    lookupNode (updateNode m b f) a = lookupNode m a := by
  induction m with
  | nil => simp [updateNode, lookupNode]
  | cons p t ih =>
    simp only [updateNode, List.map_cons] at *
    by_cases hpa : p.1 = a
    · have hpb : ¬ p.1 = b := fun hh => hab (hpa ▸ hh)
      rw [if_neg hpb]
      simp [lookupNode_cons, hpa]
    · by_cases hpb : p.1 = b
      · rw [if_pos hpb]
        simp [lookupNode_cons, hpa, ih]
      · rw [if_neg hpb]
        simp [lookupNode_cons, hpa, ih]

theorem hasKey_updateNode (m : NodeMap) (b : SocketAddr)
    (f : KnownNode → KnownNode) (a : SocketAddr) :
    hasKey (updateNode m b f) a = hasKey m a := by
  apply hasKey_map_keyfix
  intro p
  by_cases hpb : p.1 = b <;> simp [hpb]

theorem hasKey_insertNode {m : NodeMap} {a : SocketAddr}
    (b : SocketAddr) (n : KnownNode) (h : hasKey m a = true) :
    hasKey (insertNode m b n) a = true := by
  by_cases hb : hasKey m b
  · have hg : ∀ p : SocketAddr × KnownNode,
        ((if p.1 = b then (b, n) else p) : SocketAddr × KnownNode).1 = p.1 := by
      intro p
      by_cases hpb : p.1 = b <;> simp [hpb]
    simpa [insertNode, if_pos hb, hasKey_map_keyfix _ _ hg] using h
  · simp [insertNode, hb, hasKey_cons, h]

theorem any_sameEndpoints_time (s : List KnownConnection) (x y : SocketAddr) (t : Nat) :
    s.any (sameEndpoints ⟨x, y, t⟩) = edgePresent s x y := rfl

theorem insertConn_noop {s : List KnownConnection} {c : KnownConnection}
    (h : s.any (sameEndpoints c) = true) : insertConn s c = s := by
  simp [insertConn, h]

theorem edgePresent_insertConn_self (s : List KnownConnection)
    (x y : SocketAddr) (t : Nat) :
    edgePresent (insertConn s ⟨x, y, t⟩) x y = true := by
  by_cases h : s.any (sameEndpoints ⟨x, y, t⟩)
  · rw [insertConn_noop h, ← any_sameEndpoints_time s x y t]
    exact h
  · simp only [insertConn, h, if_neg, Bool.false_eq_true, not_false_iff]
    simp [edgePresent, sameEndpoints]

theorem edgePresent_insertConn_mono {s : List KnownConnection}
    {x y : SocketAddr} (c : KnownConnection) (h : edgePresent s x y = true) :
    edgePresent (insertConn s c) x y = true := by
  by_cases hc : s.any (sameEndpoints c)
  · rwa [insertConn_noop hc]
  · simp only [insertConn, hc, if_neg, Bool.false_eq_true, not_false_iff]
    simp [edgePresent] at h ⊢
    exact Or.inr h

theorem mem_insertConn {s : List KnownConnection} {c c' : KnownConnection}
    (h : c' ∈ insertConn s c) : c' ∈ s ∨ c' = c := by
  by_cases hc : s.any (sameEndpoints c)
  · rw [insertConn_noop hc] at h
    exact Or.inl h
  · simp only [insertConn, hc, if_neg, Bool.false_eq_true, not_false_iff] at h
    rcases List.mem_cons.mp h with h' | h'
    · exact Or.inr h'
    · exact Or.inl h'

theorem edgePresent_foldl_mono {src : SocketAddr} {t : Nat} {x y : SocketAddr} :
    ∀ (L : List SocketAddr) (s : List KnownConnection), edgePresent s x y = true →
      edgePresent (L.foldl (fun s a => insertConn s ⟨src, a, t⟩) s) x y = true
  | [], _, h => h
  | z :: L', s, h =>
      edgePresent_foldl_mono L' (insertConn s ⟨src, z, t⟩)
        (edgePresent_insertConn_mono _ h)

theorem edgePresent_foldl_of_mem {src : SocketAddr} {t : Nat} {a : SocketAddr} :
    ∀ (L : List SocketAddr) (s : List KnownConnection), a ∈ L →
      edgePresent (L.foldl (fun s x => insertConn s ⟨src, x, t⟩) s) src a = true
  | z :: L', s, h => by
      rcases List.mem_cons.mp h with h' | h'
      · subst h'
        exact edgePresent_foldl_mono L' _ (edgePresent_insertConn_self s src a t)
      · exact edgePresent_foldl_of_mem L' _ h'

theorem foldl_insertConn_noop {src : SocketAddr} {t : Nat} :
    ∀ (L : List SocketAddr) (s : List KnownConnection),
      (∀ a ∈ L, edgePresent s src a = true) →
      L.foldl (fun s x => insertConn s ⟨src, x, t⟩) s = s
  | [], _, _ => rfl
  | z :: L', s, h => by
      have hz : insertConn s ⟨src, z, t⟩ = s :=
        insertConn_noop (by
          rw [any_sameEndpoints_time]
          exact h z (List.mem_cons_self z L'))
      rw [List.foldl_cons, hz]
      exact foldl_insertConn_noop L' s (fun a ha => h a (List.mem_cons_of_mem z ha))

theorem mem_foldl_insertConn {src : SocketAddr} {t : Nat} {c : KnownConnection} :
    ∀ (L : List SocketAddr) (s : List KnownConnection),
      c ∈ L.foldl (fun s x => insertConn s ⟨src, x, t⟩) s →
      c ∈ s ∨ ∃ a ∈ L, c = ⟨src, a, t⟩
  | [], _, h => Or.inl h
  | z :: L', s, h => by
      rcases mem_foldl_insertConn L' (insertConn s ⟨src, z, t⟩) h with h' | ⟨a, ha, rfl⟩
      · rcases mem_insertConn h' with h'' | h''
        · exact Or.inl h''
        · exact Or.inr ⟨z, List.mem_cons_self z L', h''⟩
      · exact Or.inr ⟨a, List.mem_cons_of_mem z ha, rfl⟩

theorem hasKey_set_node_state (net : KnownNetwork) (addr : SocketAddr)
    (st : ConnectionState) (a : SocketAddr) :
    hasKey (set_node_state net addr st).nodes a = hasKey net.nodes a :=
  hasKey_updateNode net.nodes addr (fun n => { n with state := st }) a

theorem lookupNode_set_node_state_self (net : KnownNetwork) (addr : SocketAddr)
    (st : ConnectionState) :
    lookupNode (set_node_state net addr st).nodes addr =
      (lookupNode net.nodes addr).map (fun n => { n with state := st }) :=
  lookupNode_updateNode_self net.nodes addr (fun n => { n with state := st })

theorem addrTriggersDisconnect_iff (src : SocketAddr) (L : List SocketAddr) :
    addrTriggersDisconnect src L = true ↔
      (L.length > 1 ∨ (L.length = 1 ∧ L.getD 0 default ≠ src)) := by
  simp [addrTriggersDisconnect]

/-- C10: `should_connect` returns false for every address that is not a key
of the known node map, regardless of the transport-side connection counts
and per-address flags. -/
theorem c10_should_connect_unknown (net : KnownNetwork) (tv : TransportView)
    (addr : SocketAddr) (h : hasKey net.nodes addr = false) :
    should_connect net tv addr = false := by
  have hl : lookupNode net.nodes addr = none := by
    cases hl : lookupNode net.nodes addr with
    | none => rfl
    | some n =>
      have hk := (hasKey_iff_lookup net.nodes addr).mpr (by simp [hl])
      rw [hk] at h
      cases h
  simp [should_connect, hl]

/-- C10 witness: the empty store rejects a concrete unknown address even
with zero connected and connecting peers. -/
theorem c10_witness :
    hasKey initialNetwork.nodes addrW = false ∧
    should_connect initialNetwork ⟨0, 0, [], []⟩ addrW = false :=
  ⟨rfl, c10_should_connect_unknown initialNetwork ⟨0, 0, [], []⟩ addrW rfl⟩

/-- C4: processing `Addr{L}` from `src` ingests every address of `L` into
the node map, and closes the connection with `src`'s record state set to
`Disconnected` exactly when `L` has more than one entry, or exactly one
entry different from `src`; otherwise the network is left as plain
ingestion leaves it. -/
theorem c4_process_addr_spec (net : KnownNetwork) (now : Nat) (src : SocketAddr)
    (L : List SocketAddr) :
    (∀ a ∈ L, hasKey (process_addr net now src L).1.nodes a = true) ∧
    ((process_addr net now src L).2 = true ↔
      (L.length > 1 ∨ (L.length = 1 ∧ L.getD 0 default ≠ src))) ∧
    ((process_addr net now src L).2 = true →
      ∃ n, lookupNode (process_addr net now src L).1.nodes src = some n ∧
        n.state = ConnectionState.Disconnected) ∧
    ((process_addr net now src L).2 = false →
      (process_addr net now src L).1 = add_addrs net now src L) := by
  by_cases hd : addrTriggersDisconnect src L = true
  · have hproc : process_addr net now src L =
        (set_node_state (add_addrs net now src L) src ConnectionState.Disconnected,
          true) := by
      simp [process_addr, hd]
    refine ⟨?_, ?_, ?_, ?_⟩
    · intro a ha
      rw [hproc]
      show hasKey (set_node_state (add_addrs net now src L) src
        ConnectionState.Disconnected).nodes a = true
      rw [hasKey_set_node_state]
      exact hasKey_foldl_entry_of_mem L _ ha
    · rw [hproc]
      exact ⟨fun _ => (addrTriggersDisconnect_iff src L).mp hd, fun _ => rfl⟩
    · intro _
      rw [hproc]
      have hk : hasKey (add_addrs net now src L).nodes src = true :=
        hasKey_foldl_entry_mono L _ (hasKey_entryOrDefault_self net.nodes src)
      rcases Option.isSome_iff_exists.mp
          ((hasKey_iff_lookup _ src).mp hk) with ⟨n0, hn0⟩
      refine ⟨{ n0 with state := ConnectionState.Disconnected }, ?_, rfl⟩
      show lookupNode (set_node_state (add_addrs net now src L) src
        ConnectionState.Disconnected).nodes src = _
      rw [lookupNode_set_node_state_self, hn0]
      rfl
    · intro hfalse
      rw [hproc] at hfalse
      cases hfalse
  · have hproc : process_addr net now src L = (add_addrs net now src L, false) := by
      simp [process_addr, hd]
    refine ⟨?_, ?_, ?_, ?_⟩
    · intro a ha
      rw [hproc]
      exact hasKey_foldl_entry_of_mem L _ ha
    · rw [hproc]
      constructor
      · intro hh
        cases hh
      · intro hcond
        exact absurd ((addrTriggersDisconnect_iff src L).mpr hcond) hd
    · intro hh
      rw [hproc] at hh
      cases hh
    · intro _
      rw [hproc]

set_option maxRecDepth 4000

theorem lookupNode_connectOutcome_self (net : KnownNetwork) (addr : SocketAddr)
    (ok : Bool) (ts hs : Nat) :
    lookupNode (connectOutcome net addr ok ts hs).nodes addr =
      (lookupNode net.nodes addr).map (fun n =>
        if ok then
          { n with connection_failures := 0, last_connected := some ts,
                   handshake_time := some hs, state := ConnectionState.Connected }
        else
          { n with connection_failures := (n.connection_failures + 1) % 256 }) := by
  show lookupNode (updateNode net.nodes addr (fun n =>
      if ok then
        { n with connection_failures := 0, last_connected := some ts,
                 handshake_time := some hs, state := ConnectionState.Connected }
      else
        { n with connection_failures := (n.connection_failures + 1) % 256 })) addr = _
  exact lookupNode_updateNode_self net.nodes addr _

theorem lookupNode_recordVersion_self (net : KnownNetwork) (src : SocketAddr)
    (v : Nat) (ua : List Char) (sv : Nat) (hh : Int) :
    lookupNode (recordVersion net src v ua sv hh).nodes src =
      (lookupNode net.nodes src).map (fun n =>
        { n with protocol_version := some v, user_agent := some ua,
                 services := some sv, start_height := some hh }) := by
  show lookupNode (updateNode net.nodes src (fun n =>
      { n with protocol_version := some v, user_agent := some ua,
               services := some sv, start_height := some hh })) src = _
  exact lookupNode_updateNode_self net.nodes src _

theorem lookupNode_add_addrs {net : KnownNetwork} {addr : SocketAddr}
    {n : KnownNode} (now : Nat) (src : SocketAddr) (L : List SocketAddr)
    (h : lookupNode net.nodes addr = some n) :
    lookupNode (add_addrs net now src L).nodes addr = some n :=
  lookupNode_foldl_entry L _ (lookupNode_entryOrDefault src h)

/-- C3 counterexample: starting from a freshly seeded record, 255 failed
dials drive `connection_failures` to 255, and the 256th failed dial wraps
it to 0 — the counter does not saturate at `u8::MAX` as claimed (and a
256th failure is indistinguishable from the reset a successful connect
performs). -/
theorem c3_counterexample :
    lookupNode (runOps (CrawlOp.seedInsertOp addrW ::
        List.replicate 255 (CrawlOp.connectOp addrW false 0 0))).nodes addrW =
      some { connection_failures := 255 } ∧
    lookupNode (runOps (CrawlOp.seedInsertOp addrW ::
        List.replicate 256 (CrawlOp.connectOp addrW false 0 0))).nodes addrW =
      some { connection_failures := 0 } := by
  constructor <;> decide

/-- C3 (amended): each failed dial to a known address increments
`connection_failures` by one modulo 256 — by exactly one while the counter
is below 255, wrapping to 0 at 255 (release-build semantics of `u8 += 1`;
a debug build would abort instead) — the counter is exactly zero
immediately after a successful connect, and `set_node_state`, `add_addrs`
and the `Version`-handler mutation never change an existing record's
counter. -/
theorem c3_connection_failures (net : KnownNetwork) (addr : SocketAddr)
    (ts hs : Nat) (n : KnownNode) (h : lookupNode net.nodes addr = some n) :
    (∃ n1, lookupNode (connectOutcome net addr false ts hs).nodes addr = some n1 ∧
      n1.connection_failures = (n.connection_failures + 1) % 256 ∧
      (n.connection_failures < 255 →
        n1.connection_failures = n.connection_failures + 1)) ∧
    (∃ n2, lookupNode (connectOutcome net addr true ts hs).nodes addr = some n2 ∧
      n2.connection_failures = 0 ∧ n2.last_connected = some ts ∧
      n2.state = ConnectionState.Connected) ∧
    (∀ st, ∃ n3, lookupNode (set_node_state net addr st).nodes addr = some n3 ∧
      n3.connection_failures = n.connection_failures) ∧
    (∀ now src L, ∃ n4,
      lookupNode (add_addrs net now src L).nodes addr = some n4 ∧
      n4.connection_failures = n.connection_failures) ∧
    (∀ v ua sv hh, ∃ n5,
      lookupNode (recordVersion net addr v ua sv hh).nodes addr = some n5 ∧
      n5.connection_failures = n.connection_failures) := by
  refine ⟨?_, ?_, ?_, ?_, ?_⟩
  · refine ⟨{ n with connection_failures := (n.connection_failures + 1) % 256 },
      ?_, rfl, ?_⟩
    · rw [lookupNode_connectOutcome_self, h]
      rfl
    · intro hlt
      show (n.connection_failures + 1) % 256 = n.connection_failures + 1
      exact Nat.mod_eq_of_lt (by omega)
  · refine ⟨{ n with connection_failures := 0, last_connected := some ts,
                     handshake_time := some hs,
                     state := ConnectionState.Connected },
        ?_, rfl, rfl, rfl⟩
    rw [lookupNode_connectOutcome_self, h]
    rfl
  · intro st
    refine ⟨{ n with state := st }, ?_, rfl⟩
    rw [lookupNode_set_node_state_self, h]
    rfl
  · intro now src L
    exact ⟨n, lookupNode_add_addrs now src L h, rfl⟩
  · intro v ua sv hh
    refine ⟨{ n with protocol_version := some v, user_agent := some ua,
                     services := some sv, start_height := some hh }, ?_, rfl⟩
    rw [lookupNode_recordVersion_self, h]
    rfl

/-- C3 witness: the amended theorem applied to a freshly seeded record. -/
theorem c3_witness :
    lookupNode (runOps [CrawlOp.seedInsertOp addrW]).nodes addrW =
      some ({} : KnownNode) ∧
    ∃ n1, lookupNode (connectOutcome (runOps [CrawlOp.seedInsertOp addrW])
        addrW false 3 4).nodes addrW = some n1 ∧
      n1.connection_failures = (({} : KnownNode).connection_failures + 1) % 256 ∧
      (({} : KnownNode).connection_failures < 255 →
        n1.connection_failures = ({} : KnownNode).connection_failures + 1) :=
  ⟨rfl, (c3_connection_failures (runOps [CrawlOp.seedInsertOp addrW])
    addrW 3 4 {} rfl).1⟩

/-- C6 counterexample: re-observing the edge `(srcA, addrB)` at time 20,
after first observing it at time 10, leaves the stored edge stamped 10 —
`HashSet::insert` keeps the existing element, so `last_seen` does not
advance on the second invocation (while the record map is indeed
unchanged, as the claim also says). -/
theorem c6_counterexample :
    (add_addrs (add_addrs initialNetwork 10 srcA [addrB]) 20 srcA
      [addrB]).connections = [⟨srcA, addrB, 10⟩] ∧
    (add_addrs (add_addrs initialNetwork 10 srcA [addrB]) 20 srcA
      [addrB]).nodes = (add_addrs initialNetwork 10 srcA [addrB]).nodes := by
  constructor <;> decide

/-- C6 (amended): `add_addrs(src, L)` is fully idempotent — a repeated
invocation with the same arguments leaves the record map AND the edge set
(including every edge's `last_seen` stamp) completely unchanged. -/
theorem c6_add_addrs_idempotent (net : KnownNetwork) (t1 t2 : Nat)
    (src : SocketAddr) (L : List SocketAddr) :
    add_addrs (add_addrs net t1 src L) t2 src L = add_addrs net t1 src L := by
  have hsrc : hasKey (add_addrs net t1 src L).nodes src = true :=
    hasKey_foldl_entry_mono L _ (hasKey_entryOrDefault_self net.nodes src)
  have hn : (add_addrs (add_addrs net t1 src L) t2 src L).nodes =
      (add_addrs net t1 src L).nodes := by
    show L.foldl (fun m x => entryOrDefault m x)
        (entryOrDefault (add_addrs net t1 src L).nodes src) =
      (add_addrs net t1 src L).nodes
    rw [entryOrDefault_of_hasKey hsrc]
    exact foldl_entry_noop L _ (fun a ha => hasKey_foldl_entry_of_mem L _ ha)
  have hc : (add_addrs (add_addrs net t1 src L) t2 src L).connections =
      (add_addrs net t1 src L).connections := by
    show L.foldl (fun s x => insertConn s ⟨src, x, t2⟩)
        (add_addrs net t1 src L).connections =
      (add_addrs net t1 src L).connections
    exact foldl_insertConn_noop L _ (fun a ha => edgePresent_foldl_of_mem L _ ha)
  calc add_addrs (add_addrs net t1 src L) t2 src L
      = ⟨(add_addrs (add_addrs net t1 src L) t2 src L).nodes,
         (add_addrs (add_addrs net t1 src L) t2 src L).connections⟩ := rfl
    _ = ⟨(add_addrs net t1 src L).nodes,
         (add_addrs net t1 src L).connections⟩ := by rw [hn, hc]
    _ = add_addrs net t1 src L := rfl

/-- C4 witness: a concrete two-address gossip triggers the disconnect and
both addresses are ingested. -/
theorem c4_witness :
    (process_addr initialNetwork 7 srcA [addrB]).2 = true ∧
    hasKey (process_addr initialNetwork 7 srcA [addrB]).1.nodes addrB = true :=
  ⟨((c4_process_addr_spec initialNetwork 7 srcA [addrB]).2.1).mpr (by decide),
   (c4_process_addr_spec initialNetwork 7 srcA [addrB]).1 addrB (by decide)⟩

theorem edgesClosedB_iff (net : KnownNetwork) :
    edgesClosedB net = true ↔
      ∀ c ∈ net.connections,
        hasKey net.nodes c.a = true ∧ hasKey net.nodes c.b = true := by
  simp [edgesClosedB, List.all_eq_true, Bool.and_eq_true]

theorem hasKey_connectOutcome (net : KnownNetwork) (addr : SocketAddr)
    (ok : Bool) (ts hs : Nat) (a : SocketAddr) :
    hasKey (connectOutcome net addr ok ts hs).nodes a = hasKey net.nodes a := by
  show hasKey (updateNode net.nodes addr (fun n =>
      if ok then
        { n with connection_failures := 0, last_connected := some ts,
                 handshake_time := some hs, state := ConnectionState.Connected }
      else
        { n with connection_failures := (n.connection_failures + 1) % 256 })) a = _
  rw [hasKey_updateNode]

theorem hasKey_recordVersion (net : KnownNetwork) (src : SocketAddr) (v : Nat)
    (ua : List Char) (sv : Nat) (hh : Int) (a : SocketAddr) :
    hasKey (recordVersion net src v ua sv hh).nodes a = hasKey net.nodes a := by
  show hasKey (updateNode net.nodes src (fun n =>
      { n with protocol_version := some v, user_agent := some ua,
               services := some sv, start_height := some hh })) a = _
  rw [hasKey_updateNode]

theorem hasKey_applyOp {net : KnownNetwork} (op : CrawlOp) (a : SocketAddr)
    (h : hasKey net.nodes a = true) : hasKey (applyOp net op).nodes a = true := by
  cases op with
  | addAddrsOp now src L =>
    exact hasKey_foldl_entry_mono L _ (hasKey_entryOrDefault_mono src h)
  | setStateOp addr st =>
    show hasKey (set_node_state net addr st).nodes a = true
    rw [hasKey_set_node_state]
    exact h
  | removeOldOp now => exact h
  | seedInsertOp addr => exact hasKey_insertNode addr {} h
  | connectOp addr ok ts hs =>
    show hasKey (connectOutcome net addr ok ts hs).nodes a = true
    rw [hasKey_connectOutcome]
    exact h
  | versionOp src v ua sv hh =>
    show hasKey (recordVersion net src v ua sv hh).nodes a = true
    rw [hasKey_recordVersion]
    exact h

theorem edgesClosedB_applyOp {net : KnownNetwork} (op : CrawlOp)
    (h : edgesClosedB net = true) : edgesClosedB (applyOp net op) = true := by
  rw [edgesClosedB_iff] at h ⊢
  intro c hc
  cases op with
  | addAddrsOp now src L =>
    rcases mem_foldl_insertConn L net.connections hc with hold | ⟨x, hx, rfl⟩
    · rcases h c hold with ⟨ha, hb⟩
      exact ⟨hasKey_applyOp (CrawlOp.addAddrsOp now src L) c.a ha,
             hasKey_applyOp (CrawlOp.addAddrsOp now src L) c.b hb⟩
    · constructor
      · exact hasKey_foldl_entry_mono L _ (hasKey_entryOrDefault_self net.nodes src)
      · exact hasKey_foldl_entry_of_mem L _ hx
  | setStateOp addr st =>
    rcases h c hc with ⟨ha, hb⟩
    exact ⟨hasKey_applyOp (CrawlOp.setStateOp addr st) c.a ha,
           hasKey_applyOp (CrawlOp.setStateOp addr st) c.b hb⟩
  | removeOldOp now =>
    have hc' : c ∈ net.connections := (List.mem_filter.mp hc).1
    exact h c hc'
  | seedInsertOp addr =>
    rcases h c hc with ⟨ha, hb⟩
    exact ⟨hasKey_insertNode addr {} ha, hasKey_insertNode addr {} hb⟩
  | connectOp addr ok ts hs =>
    rcases h c hc with ⟨ha, hb⟩
    exact ⟨hasKey_applyOp (CrawlOp.connectOp addr ok ts hs) c.a ha,
           hasKey_applyOp (CrawlOp.connectOp addr ok ts hs) c.b hb⟩
  | versionOp src v ua sv hh =>
    rcases h c hc with ⟨ha, hb⟩
    exact ⟨hasKey_applyOp (CrawlOp.versionOp src v ua sv hh) c.a ha,
           hasKey_applyOp (CrawlOp.versionOp src v ua sv hh) c.b hb⟩

theorem edgesClosedB_foldl :
    ∀ (ops : List CrawlOp) (net : KnownNetwork), edgesClosedB net = true →
      edgesClosedB (ops.foldl applyOp net) = true
  | [], _, h => h
  | op :: rest, net, h =>
      edgesClosedB_foldl rest (applyOp net op) (edgesClosedB_applyOp op h)

/-- C9: in every state reachable by the store's operations from the
initial empty store, both endpoints of every edge are keys of the node
map; every single operation preserves this closure; and no operation ever
removes a key from the node map. -/
theorem c9_edges_closed_invariant :
    (∀ ops : List CrawlOp, edgesClosedB (runOps ops) = true) ∧
    (∀ (net : KnownNetwork) (op : CrawlOp), edgesClosedB net = true →
      edgesClosedB (applyOp net op) = true) ∧
    (∀ (net : KnownNetwork) (op : CrawlOp) (a : SocketAddr),
      hasKey net.nodes a = true → hasKey (applyOp net op).nodes a = true) :=
  ⟨fun ops => edgesClosedB_foldl ops initialNetwork rfl,
   fun _ op h => edgesClosedB_applyOp op h,
   fun _ op a h => hasKey_applyOp op a h⟩

/-- C9 witness: the invariant evaluated on a concrete run, preservation
and key-monotonicity applied at a concrete state and operation. -/
theorem c9_witness :
    edgesClosedB (runOps [CrawlOp.addAddrsOp 5 srcA [addrB],
      CrawlOp.connectOp addrB false 6 0]) = true ∧
    edgesClosedB (applyOp initialNetwork (CrawlOp.addAddrsOp 5 srcA [addrB])) = true ∧
    hasKey (applyOp (runOps [CrawlOp.seedInsertOp addrW])
      (CrawlOp.removeOldOp 9)).nodes addrW = true :=
  ⟨c9_edges_closed_invariant.1 _,
   c9_edges_closed_invariant.2.1 initialNetwork _ (by decide),
   c9_edges_closed_invariant.2.2 (runOps [CrawlOp.seedInsertOp addrW]) _ addrW
     (by decide)⟩

/-- C2 counterexample: the user agent "/MagicBean:7.0.0/" lowercases to a
string containing "magicbean" and no "flux", and a MagicBean major
version 7 ≥ 6 is parsable from it, yet `classify_client` returns zcashd,
not flux — the code only recognizes the literal substring "magicbean:6."
as flux, so majors ≥ 7 are not classified as flux as claimed. -/
theorem c2_counterexample :
    containsSub (toLowercase (("/MagicBean:7.0.0/").toList))
      (("magicbean").toList) = true ∧
    containsSub (toLowercase (("/MagicBean:7.0.0/").toList))
      (("flux").toList) = false ∧
    parseMagicBeanMajor (("/MagicBean:7.0.0/").toList) = some 7 ∧
    Rpc.classify_client (("/MagicBean:7.0.0/").toList) = (("zcashd"), false) := by
  refine ⟨?_, ?_, ?_, ?_⟩ <;> decide

/-- C2 (amended): for every user agent whose lowercased form contains
"magicbean" and does not contain "flux", `classify_client` returns flux
exactly when the lowercased form contains the substring "magicbean:6."
(only a literal 6.x version string counts as flux; any other major,
including every major ≥ 7, classifies as zcashd); in particular
"/MagicBean:5.9.9/" classifies as zcashd and "/MagicBean:6.0.0/" as flux. -/
theorem c2_classify_client_magicbean (ua : List Char)
    (hmb : containsSub (toLowercase ua) (("magicbean").toList) = true)
    (hfl : containsSub (toLowercase ua) (("flux").toList) = false) :
    Rpc.classify_client ua =
      (if containsSub (toLowercase ua) (("magicbean:6.").toList)
       then ((("flux" : String)), true) else ((("zcashd" : String)), false)) := by
  cases h6 : containsSub (toLowercase ua) (("magicbean:6.").toList) with
  | true =>
    simp only [Rpc.classify_client]
    rw [hfl, h6]
    simp
  | false =>
    simp only [Rpc.classify_client]
    rw [hfl, h6, hmb]
    simp

/-- C2 witness: the amended characterization applied to the claim's two
boundary user agents. -/
theorem c2_witness :
    Rpc.classify_client (("/MagicBean:5.9.9/").toList) = (("zcashd"), false) ∧
    Rpc.classify_client (("/MagicBean:6.0.0/").toList) = (("flux"), true) := by
  constructor
  · rw [c2_classify_client_magicbean (("/MagicBean:5.9.9/").toList)
      (by decide) (by decide)]
    decide
  · rw [c2_classify_client_magicbean (("/MagicBean:6.0.0/").toList)
      (by decide) (by decide)]
    decide

/-- C1: in `is_relevant_zcash_node` (per-client height tolerance variant),
for every record passing the other relevance filters — user agent
present, non-flux classification, not `other`, height at least
2,500,000 — relevance holds precisely when |height − tip| ≤ 20,000 for a
zebra-classified record and precisely when |height − tip| ≤ 100,000 for a
zcashd-classified record; and every user agent containing "magicbean"
(lowercased) that is not flux classifies as zcashd, so non-flux MagicBean
records get the 100,000 tolerance. -/
theorem c1_height_delta_by_client (node : KnownNode) (tip : Int) (ua : List Char)
    (hua : node.user_agent = some ua)
    (hfl : (ZigRpc.classify_client ua).2 = false)
    (hh : (2500000 : Int) ≤ node.start_height.getD 0) :
    ((ZigRpc.classify_client ua).1 = ("zebra") →
      (ZigRpc.is_relevant_zcash_node node tip = true ↔
        ((node.start_height.getD 0) - tip).natAbs ≤ 20000)) ∧
    ((ZigRpc.classify_client ua).1 = ("zcashd") →
      (ZigRpc.is_relevant_zcash_node node tip = true ↔
        ((node.start_height.getD 0) - tip).natAbs ≤ 100000)) ∧
    (containsSub (toLowercase ua) (("magicbean").toList) = true →
      (ZigRpc.classify_client ua).1 = ("zcashd")) := by
  have hnl : ¬ (node.start_height.getD 0 < 2500000) := not_lt.mpr hh
  refine ⟨?_, ?_, ?_⟩
  · intro hz
    simp only [ZigRpc.is_relevant_zcash_node, hua]
    rw [hfl, hz]
    by_cases hd : (((node.start_height.getD 0) - tip).natAbs > 20000) <;>
      simp [hnl, hd] <;> omega
  · intro hz
    simp only [ZigRpc.is_relevant_zcash_node, hua]
    rw [hfl, hz]
    by_cases hd : (((node.start_height.getD 0) - tip).natAbs > 100000) <;>
      simp [hnl, hd] <;> omega
  · intro hm
    cases hflx : containsSub (toLowercase ua) (("flux").toList) with
    | true =>
      exfalso
      simp only [ZigRpc.classify_client] at hfl
      rw [hflx] at hfl
      simp at hfl
    | false =>
      simp only [ZigRpc.classify_client]
      rw [hflx, hm]
      simp

/-- C1 witness: a concrete zebra record at the tip is relevant via the
20,000-tolerance direction of the theorem. -/
theorem c1_witness :
    ZigRpc.is_relevant_zcash_node
      { user_agent := some (("/Zebra:1.0.0/").toList),
        start_height := some 2600000 } 2600000 = true :=
  ((c1_height_delta_by_client
      { user_agent := some (("/Zebra:1.0.0/").toList),
        start_height := some 2600000 }
      2600000 (("/Zebra:1.0.0/").toList) rfl (by decide) (by decide)).1
    (by decide)).mpr (by decide)

theorem sorted_count_le :
    ∀ (s : List Int), List.Sorted (· ≤ ·) s → ∀ (i : Nat) (hi : i < s.length),
      i + 1 ≤ (s.filter (fun h => decide (h ≤ s.get ⟨i, hi⟩))).length := by
  intro s
  induction s with
  | nil =>
    intro _ i hi
    exact absurd hi (by simp)
  | cons a t ih =>
    intro hs i hi
    cases i with
    | zero =>
      have hpa : decide (a ≤ (a :: t).get ⟨0, hi⟩) = true := decide_eq_true le_rfl
      rw [List.filter_cons, hpa]
      simp
    | succ j =>
      have hj : j < t.length := by simpa using hi
      have hget : (a :: t).get ⟨j + 1, hi⟩ = t.get ⟨j, hj⟩ := rfl
      rw [hget, List.filter_cons]
      have hae : a ≤ t.get ⟨j, hj⟩ :=
        List.rel_of_sorted_cons hs _ (List.get_mem t j hj)
      have hpa : decide (a ≤ t.get ⟨j, hj⟩) = true := decide_eq_true hae
      rw [hpa]
      have := ih hs.of_cons j hj
      simp only [if_true, List.length_cons]
      omega

theorem sorted_pick (s hs : List Int) (d : Int) (hperm : s.Perm hs)
    (hsorted : List.Sorted (· ≤ ·) s) (hne : hs ≠ []) :
    s.getD (min (Rpc.tipIndex s.length) (s.length - 1)) d ∈ hs ∧
    20 * ((hs.filter (fun h => decide (h ≤
        s.getD (min (Rpc.tipIndex s.length) (s.length - 1)) d))).length) ≥
      19 * hs.length := by
  have hn : 0 < hs.length := List.length_pos.mpr hne
  have hsl : s.length = hs.length := hperm.length_eq
  have hidx : min (Rpc.tipIndex s.length) (s.length - 1) < s.length := by
    simp only [Rpc.tipIndex]
    omega
  have hgd : s.getD (min (Rpc.tipIndex s.length) (s.length - 1)) d =
      s.get ⟨min (Rpc.tipIndex s.length) (s.length - 1), hidx⟩ := by
    simp [List.getD_eq_getElem?_getD, List.getElem?_eq_getElem hidx]
  rw [hgd]
  constructor
  · exact hperm.mem_iff.mp
      (List.get_mem s (min (Rpc.tipIndex s.length) (s.length - 1)) hidx)
  · have hcount := sorted_count_le s hsorted
      (min (Rpc.tipIndex s.length) (s.length - 1)) hidx
    have hfeq := (hperm.filter (fun h => decide (h ≤
      s.get ⟨min (Rpc.tipIndex s.length) (s.length - 1), hidx⟩))).length_eq
    rw [hfeq] at hcount
    simp only [Rpc.tipIndex] at hcount ⊢
    omega

/-- C5: `estimate_tip_height` considers exactly the known start heights
strictly above 2,500,000; when none qualify it returns exactly 2,500,000,
and otherwise it returns one of the qualifying heights positioned as a
95th percentile: at least 95% of the qualifying heights (19/20 of their
count) are less than or equal to the returned value. -/
theorem c5_estimate_tip_height (nodes : NodeMap) :
    (∀ h ∈ Rpc.qualifyingHeights nodes, h > 2500000) ∧
    (Rpc.qualifyingHeights nodes = [] →
      Rpc.estimate_tip_height nodes = 2500000) ∧
    (Rpc.qualifyingHeights nodes ≠ [] →
      Rpc.estimate_tip_height nodes ∈ Rpc.qualifyingHeights nodes ∧
      20 * ((Rpc.qualifyingHeights nodes).filter
          (fun h => decide (h ≤ Rpc.estimate_tip_height nodes))).length ≥
        19 * (Rpc.qualifyingHeights nodes).length) := by
  refine ⟨?_, ?_, ?_⟩
  · intro h hm
    exact of_decide_eq_true (List.mem_filter.mp hm).2
  · intro he
    simp [Rpc.estimate_tip_height, he, Rpc.MIN_MAINNET_HEIGHT]
  · intro hne
    have hperm := List.perm_insertionSort (fun a b : Int => a ≤ b)
      (Rpc.qualifyingHeights nodes)
    have hsorted : List.Sorted (· ≤ ·)
        ((Rpc.qualifyingHeights nodes).insertionSort (fun a b => a ≤ b)) :=
      List.sorted_insertionSort _ (Rpc.qualifyingHeights nodes)
    have hres : Rpc.estimate_tip_height nodes =
        ((Rpc.qualifyingHeights nodes).insertionSort (fun a b => a ≤ b)).getD
          (min (Rpc.tipIndex ((Rpc.qualifyingHeights nodes).insertionSort
                  (fun a b => a ≤ b)).length)
               (((Rpc.qualifyingHeights nodes).insertionSort
                  (fun a b => a ≤ b)).length - 1))
          Rpc.MIN_MAINNET_HEIGHT := by
      simp only [Rpc.estimate_tip_height]
      rw [if_neg (by simp [List.isEmpty_iff, hne])]
    rw [hres]
    exact sorted_pick _ _ _ hperm hsorted hne

/-- C5 witness: the theorem applied to a concrete two-record map with
qualifying heights 2,600,001 and 2,700,001 (the estimate is 2,700,001). -/
theorem c5_witness :
    Rpc.qualifyingHeights [(addrW, { start_height := some 2600001 }),
      (srcA, { start_height := some 2700001 })] ≠ [] ∧
    (Rpc.estimate_tip_height [(addrW, { start_height := some 2600001 }),
        (srcA, { start_height := some 2700001 })] ∈
      Rpc.qualifyingHeights [(addrW, { start_height := some 2600001 }),
        (srcA, { start_height := some 2700001 })] ∧
    20 * ((Rpc.qualifyingHeights [(addrW, { start_height := some 2600001 }),
          (srcA, { start_height := some 2700001 })]).filter
        (fun h => decide (h ≤ Rpc.estimate_tip_height
          [(addrW, { start_height := some 2600001 }),
           (srcA, { start_height := some 2700001 })]))).length ≥
      19 * (Rpc.qualifyingHeights [(addrW, { start_height := some 2600001 }),
        (srcA, { start_height := some 2700001 })]).length) :=
  ⟨by decide,
   (c5_estimate_tip_height [(addrW, { start_height := some 2600001 }),
      (srcA, { start_height := some 2700001 })]).2.2 (by decide)⟩

theorem mem_needInfoBucket {snap : List (SocketAddr × KnownNode)} {now : Nat}
    {a : SocketAddr} (h : a ∈ needInfoBucket snap now) :
    ∃ n, (a, n) ∈ snap ∧ keptForDial now n = true ∧ n.user_agent = none := by
  rcases List.mem_map.mp h with ⟨p, hp, rfl⟩
  rcases List.mem_filter.mp hp with ⟨hmem, hcond⟩
  rw [Bool.and_eq_true] at hcond
  exact ⟨p.2, hmem, hcond.1, Option.isNone_iff_eq_none.mp hcond.2⟩

theorem mem_haveInfoBucket {snap : List (SocketAddr × KnownNode)} {now : Nat}
    {a : SocketAddr} (h : a ∈ haveInfoBucket snap now) :
    ∃ n, (a, n) ∈ snap ∧ keptForDial now n = true ∧ n.user_agent ≠ none := by
  rcases List.mem_map.mp h with ⟨p, hp, rfl⟩
  rcases List.mem_filter.mp hp with ⟨hmem, hcond⟩
  rw [Bool.and_eq_true] at hcond
  exact ⟨p.2, hmem, hcond.1, Option.isSome_iff_ne_none.mp hcond.2⟩

/-- C7: for any tick snapshot and any shuffles of its two candidate
buckets, the dial-target list contains only addresses of records whose
`last_connected` is not within the last 45 seconds; the list has length
at most `NUM_CONN_ATTEMPTS_PERIODIC = 2000`; and it decomposes as a block
of `need_info` addresses (user agent absent) followed by a block of
`have_info` addresses (user agent present), the first block containing
every selected `need_info` address (all of them whenever the bucket fits
the budget). -/
theorem c7_crawl_targets (snap : List (SocketAddr × KnownNode)) (now : Nat)
    (needS haveS : List SocketAddr)
    (hn : needS.Perm (needInfoBucket snap now))
    (hv : haveS.Perm (haveInfoBucket snap now)) :
    (∀ a ∈ crawlTargets needS haveS,
      ∃ n, (a, n) ∈ snap ∧ keptForDial now n = true) ∧
    (crawlTargets needS haveS).length ≤ NUM_CONN_ATTEMPTS_PERIODIC ∧
    (∃ A B, crawlTargets needS haveS = A ++ B ∧
      (∀ a ∈ A, ∃ n, (a, n) ∈ snap ∧ n.user_agent = none) ∧
      (∀ b ∈ B, ∃ n, (b, n) ∈ snap ∧ n.user_agent ≠ none) ∧
      (needS.length ≤ NUM_CONN_ATTEMPTS_PERIODIC → ∀ a ∈ needS, a ∈ A)) := by
  refine ⟨?_, ?_, ?_⟩
  · intro a ha
    rcases List.mem_append.mp ha with ha' | ha'
    · have : a ∈ needInfoBucket snap now :=
        hn.mem_iff.mp (List.take_subset _ _ ha')
      rcases mem_needInfoBucket this with ⟨n, hmem, hkept, _⟩
      exact ⟨n, hmem, hkept⟩
    · have : a ∈ haveInfoBucket snap now :=
        hv.mem_iff.mp (List.take_subset _ _ ha')
      rcases mem_haveInfoBucket this with ⟨n, hmem, hkept, _⟩
      exact ⟨n, hmem, hkept⟩
  · have h1 := List.length_take_le NUM_CONN_ATTEMPTS_PERIODIC needS
    have h2 := List.length_take_le
      (NUM_CONN_ATTEMPTS_PERIODIC - (needS.take NUM_CONN_ATTEMPTS_PERIODIC).length)
      haveS
    simp only [crawlTargets, List.length_append]
    omega
  · refine ⟨needS.take NUM_CONN_ATTEMPTS_PERIODIC,
      haveS.take (NUM_CONN_ATTEMPTS_PERIODIC -
        (needS.take NUM_CONN_ATTEMPTS_PERIODIC).length), rfl, ?_, ?_, ?_⟩
    · intro a ha
      have : a ∈ needInfoBucket snap now :=
        hn.mem_iff.mp (List.take_subset _ _ ha)
      rcases mem_needInfoBucket this with ⟨n, hmem, _, hnone⟩
      exact ⟨n, hmem, hnone⟩
    · intro b hb
      have : b ∈ haveInfoBucket snap now :=
        hv.mem_iff.mp (List.take_subset _ _ hb)
      rcases mem_haveInfoBucket this with ⟨n, hmem, _, hsome⟩
      exact ⟨n, hmem, hsome⟩
    · intro hle a ha
      rw [List.take_of_length_le hle]
      exact ha

/-- C7 witness: the theorem applied to a concrete snapshot with the
identity shuffles. -/
theorem c7_witness :
    (crawlTargets
      (needInfoBucket [(addrW, {}),
        (srcA, { user_agent := some (("/x/").toList), last_connected := some 99 })] 100)
      (haveInfoBucket [(addrW, {}),
        (srcA, { user_agent := some (("/x/").toList), last_connected := some 99 })] 100)).length ≤
      NUM_CONN_ATTEMPTS_PERIODIC :=
  (c7_crawl_targets [(addrW, {}),
      (srcA, { user_agent := some (("/x/").toList), last_connected := some 99 })] 100
    _ _ (List.Perm.refl _) (List.Perm.refl _)).2.1

theorem containsSub_of_isPrefixOf {hay n : List Char}
    (h : n.isPrefixOf hay = true) : containsSub hay n = true := by
  cases hay with
  | nil =>
    cases n with
    | nil => rfl
    | cons c m => simp [List.isPrefixOf] at h
  | cons x t => simp [containsSub, h]

theorem startsWith_cons_tail {hay n : List Char} {c : Char}
    (h : startsWith hay (c :: n) = true) : containsSub hay n = true := by
  cases hay with
  | nil => simp [startsWith, List.isPrefixOf] at h
  | cons x t =>
    simp only [startsWith, List.isPrefixOf, Bool.and_eq_true] at h
    have ht : containsSub t n = true := containsSub_of_isPrefixOf h.2
    simp [containsSub, ht]

theorem relevant_client_type (node : KnownNode) (port : Nat) (tip : Int)
    (ua : List Char) (hua : node.user_agent = some ua)
    (hrel : Rpc.is_relevant_zcash_node node port tip = true) :
    (Rpc.classify_client ua).2 = false ∧
    ((Rpc.classify_client ua).1 = ("zcashd") ∨
      (Rpc.classify_client ua).1 = ("zebra")) := by
  simp only [Rpc.is_relevant_zcash_node, hua] at hrel
  cases hvc : (startsWith (toLowercase ua) (("/magicbean").toList) ||
      startsWith (toLowercase ua) (("/zebra").toList)) with
  | false =>
    rw [hvc] at hrel
    simp at hrel
  | true =>
    rw [hvc] at hrel
    cases hflx : containsSub (toLowercase ua) (("flux").toList) with
    | true =>
      rw [hflx] at hrel
      simp at hrel
    | false =>
      rw [hflx] at hrel
      cases h6 : containsSub (toLowercase ua) (("magicbean:6.").toList) with
      | true =>
        rw [h6] at hrel
        simp at hrel
      | false =>
        simp only [Rpc.classify_client]
        rw [hflx, h6]
        cases hmb : containsSub (toLowercase ua) (("magicbean").toList) with
        | true => simp
        | false =>
          have hz : startsWith (toLowercase ua) (("/zebra").toList) = true := by
            rcases (Bool.or_eq_true _ _) ▸ hvc with h1 | h2
            · exfalso
              have hmb' : containsSub (toLowercase ua) (("magicbean").toList) = true := by
                apply startsWith_cons_tail (c := Char.ofNat 47)
                rw [show ((Char.ofNat 47) :: (("magicbean").toList)) =
                  (("/magicbean").toList) from rfl]
                exact h1
              rw [hmb'] at hmb
              exact Bool.noConfusion hmb
            · exact h2
          have hzc : containsSub (toLowercase ua) (("zebra").toList) = true := by
            apply startsWith_cons_tail (c := Char.ofNat 47)
            rw [show ((Char.ofNat 47) :: (("zebra").toList)) =
              (("/zebra").toList) from rfl]
            exact hz
          rw [hzc]
          simp

theorem nodeLe_iff (a b : Rpc.NodeInfo) :
    Rpc.nodeLe a b = true ↔
      ((a.is_relevant = true ∧ b.is_relevant = false) ∨
       (a.is_relevant = b.is_relevant ∧
         a.last_seen_secs ≤ b.last_seen_secs)) := by
  simp only [Rpc.nodeLe, Rpc.nodeOrd]
  rcases Bool.eq_false_or_eq_true a.is_relevant with ha | ha <;>
    rcases Bool.eq_false_or_eq_true b.is_relevant with hb | hb
  · simp [ha, hb, show compare (true : Bool) true = Ordering.eq from by decide,
      Ordering.then, Nat.compare_eq_gt, Nat.not_lt]
  · simp [ha, hb, show compare (false : Bool) true = Ordering.lt from by decide,
      Ordering.then]
  · simp [ha, hb, show compare (true : Bool) false = Ordering.gt from by decide,
      Ordering.then]
  · simp [ha, hb, show compare (false : Bool) false = Ordering.eq from by decide,
      Ordering.then, Nat.compare_eq_gt, Nat.not_lt]

theorem nodeLe_trans : ∀ (a b c : Rpc.NodeInfo), Rpc.nodeLe a b = true →
    Rpc.nodeLe b c = true → Rpc.nodeLe a c = true := by
  intro a b c hab hbc
  rw [nodeLe_iff] at hab hbc ⊢
  rcases hab with ⟨ha, hb⟩ | ⟨hab, hls⟩ <;>
    rcases hbc with ⟨hb', hc⟩ | ⟨hbc, hls'⟩
  · rw [hb] at hb'
    exact Bool.noConfusion hb'
  · left
    exact ⟨ha, by rw [← hbc]; exact hb⟩
  · left
    exact ⟨by rw [hab]; exact hb', hc⟩
  · right
    exact ⟨by rw [hab, hbc], le_trans hls hls'⟩

theorem nodeLe_total : ∀ (a b : Rpc.NodeInfo),
    (Rpc.nodeLe a b || Rpc.nodeLe b a) = true := by
  intro a b
  rw [Bool.or_eq_true, nodeLe_iff, nodeLe_iff]
  rcases Bool.eq_false_or_eq_true a.is_relevant with ha | ha <;>
    rcases Bool.eq_false_or_eq_true b.is_relevant with hb | hb <;>
    simp only [ha, hb]
  · rcases Nat.le_total a.last_seen_secs b.last_seen_secs with h | h
    · exact Or.inl (Or.inr (by simp [h]))
    · exact Or.inr (Or.inr (by simp [h]))
  · exact Or.inl (Or.inl (by simp))
  · exact Or.inr (Or.inl (by simp))
  · rcases Nat.le_total a.last_seen_secs b.last_seen_secs with h | h
    · exact Or.inl (Or.inr (by simp [h]))
    · exact Or.inr (Or.inr (by simp [h]))

theorem nodeLe_imp_ordered {a b : Rpc.NodeInfo}
    (h : Rpc.nodeLe a b = true) : Rpc.nodeOrdered a b := by
  rw [nodeLe_iff] at h
  constructor
  · intro hbt
    rcases h with ⟨ha, _⟩ | ⟨hab, _⟩
    · exact ha
    · rw [hab]
      exact hbt
  · intro he
    rcases h with ⟨ha, hb⟩ | ⟨_, hls⟩
    · rw [ha, hb] at he
      exact Bool.noConfusion he
    · exact hls

instance : IsTotal Rpc.NodeInfo Rpc.nodeLeP :=
  ⟨fun a b => (Bool.or_eq_true _ _) ▸ nodeLe_total a b⟩

instance : IsTrans Rpc.NodeInfo Rpc.nodeLeP :=
  ⟨nodeLe_trans⟩

/-- C8: with `include_flux = false`, every entry of the list returned by
`getnodes` is relevant, not flux, and has client type zcashd or zebra
(relevance forces a MagicBean or Zebra agent, so the classification can
be nothing else); and the returned list is ordered with relevant entries
first and, within equal relevance, ascending by `last_seen_secs`. -/
theorem c8_getnodes_no_flux (nodes : NodeMap) (now : Nat) :
    (∀ info ∈ Rpc.getnodesResult nodes now false,
      info.is_relevant = true ∧ info.is_flux = false ∧
      (info.client_type = ("zcashd") ∨ info.client_type = ("zebra"))) ∧
    List.Pairwise Rpc.nodeOrdered (Rpc.getnodesResult nodes now false) := by
  constructor
  · intro info hmem
    have hraw := (List.perm_insertionSort Rpc.nodeLeP _).mem_iff.mp hmem
    rcases List.mem_filterMap.mp hraw with ⟨p, hp, hfp⟩
    cases hua : p.2.user_agent with
    | none =>
      rw [hua] at hfp
      simp at hfp
    | some ua =>
      rw [hua] at hfp
      have hfp' : (if !false && (Rpc.classify_client ua).2 then none
          else if !false && !(Rpc.is_relevant_zcash_node p.2 p.1.port
              (Rpc.estimate_tip_height nodes)) then none
          else some (Rpc.mkNodeInfo p.1 p.2 ua now
            (Rpc.classify_client ua).1 (Rpc.classify_client ua).2
            (Rpc.is_relevant_zcash_node p.2 p.1.port
              (Rpc.estimate_tip_height nodes)))) = some info := hfp
      simp only [Bool.not_false, Bool.true_and] at hfp'
      cases hcf : (Rpc.classify_client ua).2 with
      | true =>
        rw [hcf] at hfp'
        simp at hfp'
      | false =>
        rw [hcf] at hfp'
        cases hrel : Rpc.is_relevant_zcash_node p.2 p.1.port
            (Rpc.estimate_tip_height nodes) with
        | false =>
          rw [hrel] at hfp'
          simp at hfp'
        | true =>
          rw [hrel] at hfp'
          simp only [Bool.false_eq_true, if_false, Bool.not_true,
            Option.some.injEq] at hfp'
          subst hfp'
          refine ⟨rfl, rfl, ?_⟩
          exact (relevant_client_type p.2 p.1.port
            (Rpc.estimate_tip_height nodes) ua hua hrel).2
  · exact (List.sorted_insertionSort Rpc.nodeLeP _).imp
      (fun h => nodeLe_imp_ordered h)

/-- C8 witness: the theorem applied to a concrete one-record snapshot
whose single entry (a MagicBean 5.4.2 node at the tip) is returned. -/
theorem c8_witness :
    (Rpc.getnodesResult [(⟨("9.9.9.9"), 8233⟩,
      { user_agent := some (("/MagicBean:5.4.2/").toList),
        start_height := some 2600000,
        last_connected := some 50 })] 60 false).length = 1 ∧
    List.Pairwise Rpc.nodeOrdered (Rpc.getnodesResult [(⟨("9.9.9.9"), 8233⟩,
      { user_agent := some (("/MagicBean:5.4.2/").toList),
        start_height := some 2600000,
        last_connected := some 50 })] 60 false) ∧
    ∀ info ∈ Rpc.getnodesResult [(⟨("9.9.9.9"), 8233⟩,
      { user_agent := some (("/MagicBean:5.4.2/").toList),
        start_height := some 2600000,
        last_connected := some 50 })] 60 false,
      info.is_relevant = true ∧ info.is_flux = false ∧
      (info.client_type = ("zcashd") ∨ info.client_type = ("zebra")) :=
  ⟨by decide,
   (c8_getnodes_no_flux [(⟨("9.9.9.9"), 8233⟩,
      { user_agent := some (("/MagicBean:5.4.2/").toList),
        start_height := some 2600000,
        last_connected := some 50 })] 60).2,
   (c8_getnodes_no_flux [(⟨("9.9.9.9"), 8233⟩,
      { user_agent := some (("/MagicBean:5.4.2/").toList),
        start_height := some 2600000,
        last_connected := some 50 })] 60).1⟩
